import Mathlib

/-!
Verification of the aggregation and rendering logic of
`scripts/build_dashboard.py` (ex-parte rates dashboard builder).

The Python `csv.DictReader` is an external collaborator: its lexing of the
raw text into a header row and data rows is taken as the input boundary, so
a raw input is modelled as a header (list of column names) plus the list of
already-lexed data rows (each a list of field strings).  `DictReader`'s
field-access semantics are modelled exactly: duplicate header names are
resolved to the last occurrence (dict construction order), a row shorter
than the header yields the rest-value `None` for the trailing columns (so
`.strip()` on it raises `AttributeError`), a column absent from the header
raises `KeyError`, and blank rows (empty lists) are skipped by the reader.

Exceptions are modelled with `Except PyErr`; Python numbers are modelled
over `ℚ` (see `pyFloat` for the scope of that model).
-/

namespace ExparteRates

instance {ε α : Type} [DecidableEq ε] [DecidableEq α] : DecidableEq (Except ε α) := fun x y =>
  match x, y with
  | .ok a, .ok b =>
    if h : a = b then .isTrue (by rw [h]) else .isFalse (by simp [h])
  | .error a, .error b =>
    if h : a = b then .isTrue (by rw [h]) else .isFalse (by simp [h])
  | .ok _, .error _ => .isFalse (by simp)
  | .error _, .ok _ => .isFalse (by simp)

/-- Python exceptions that `parse_csv` can raise, by kind. -/
inductive PyErr where
  /-- `KeyError`: a required column name is absent from the header. -/
  | keyError (col : String)
  /-- `AttributeError`: `None.strip()` — the row is shorter than the header,
  so `DictReader` filled the column with its rest-value `None`. -/
  | attrError (col : String)
  /-- `ValueError`: `int(text)` failed on the tail of a period identifier. -/
  | valueError (text : String)
  /-- `IndexError`: `months[0]` accessed on an empty sorted period list. -/
  | indexError
deriving DecidableEq

/-- A raw CSV input as seen through `csv.DictReader`: the header line's
column names, and the data rows as lists of field strings. -/
structure RawInput where
  header : List String
  records : List (List String)
deriving DecidableEq

/-- Column name `"Original or Updated"` (the revision flag). -/
def colFlag : String := "Original or Updated"

/-- Column name `"State Abbreviation"`. -/
def colState : String := "State Abbreviation"

/-- Column name `"Reporting Period"`. -/
def colMonth : String := "Reporting Period"

/-- Column name `"Beneficiaries with a Renewal Due"`. -/
def colRenewal : String := "Beneficiaries with a Renewal Due"

/-- Column name `"Beneficiaries Whose Coverage Was Renewed on an Ex Parte Basis"`. -/
def colExParte : String := "Beneficiaries Whose Coverage Was Renewed on an Ex Parte Basis"

/-- The five column names `parse_csv` reads from every processed row. -/
def requiredCols : List String := [colFlag, colState, colMonth, colRenewal, colExParte]

/-- ASCII whitespace stripped by Python `str.strip()`: space, `\t`, `\n`,
`\r`, `\x0b`, `\x0c` and the control separators `\x1c`-`\x1f` (the model
restricts Python's Unicode whitespace set to its ASCII part; the non-ASCII
members such as `\x85` are outside the model). -/
def isPySpace (c : Char) : Bool :=
  c == ' ' || c == '\t' || c == '\n' || c == '\r' || c == '\x0b' || c == '\x0c' ||
  c == '\x1c' || c == '\x1d' || c == '\x1e' || c == '\x1f'

/-- Python `str.strip()`: remove leading and trailing whitespace. -/
def pyStrip (s : String) : String :=
  ⟨((s.data.dropWhile isPySpace).reverse.dropWhile isPySpace).reverse⟩

/-- Python slicing `s[:n]` (by code points). -/
def strTake (s : String) (n : Nat) : String := ⟨s.data.take n⟩

/-- Python slicing `s[n:]` (by code points). -/
def strDrop (s : String) (n : Nat) : String := ⟨s.data.drop n⟩

/-- Value of a nonempty digit string, `none` if empty or non-digit. -/
def digitsVal (l : List Char) : Option Nat :=
  if l ≠ [] ∧ l.all (·.isDigit) then
    some (l.foldl (fun a c => a * 10 + (c.toNat - 48)) 0)
  else none

/-- Python `int(text)` on a string: optional surrounding whitespace, an
optional sign, then decimal digits.  (Underscore digit separators are not
modelled.) -/
def pyInt (s : String) : Option Int :=
  match (pyStrip s).data with
  | '+' :: rest => (digitsVal rest).map Int.ofNat
  | '-' :: rest => (digitsVal rest).map (fun n => -(n : Int))
  | l => (digitsVal l).map Int.ofNat

/-- Signed digit run of a float literal's exponent: an optional sign then
decimal digits, with no interior whitespace (Python rejects `"1e 5"`). -/
def parseExpDigits (l : List Char) : Option Int :=
  match l with
  | '+' :: r => (digitsVal r).map Int.ofNat
  | '-' :: r => (digitsVal r).map (fun n => -(n : Int))
  | r => (digitsVal r).map Int.ofNat

/-- Exponent suffix of a Python float literal: empty, or `e`/`E`, an optional
sign and digits consuming the rest of the input. -/
def parseExp (l : List Char) : Option Int :=
  match l with
  | [] => some 0
  | 'e' :: rest => parseExpDigits rest
  | 'E' :: rest => parseExpDigits rest
  | _ => none

/-- Unsigned part of a Python float literal over `ℚ`:
`digits [. digits] [exp]` or `. digits [exp]`. -/
def pyFloatCore (l : List Char) : Option ℚ :=
  let ip := l.takeWhile (·.isDigit)
  let r1 := l.dropWhile (·.isDigit)
  match r1 with
  | '.' :: r2 =>
    let fp := r2.takeWhile (·.isDigit)
    let r3 := r2.dropWhile (·.isDigit)
    if ip = [] ∧ fp = [] then none
    else
      (parseExp r3).map (fun ex =>
        (((digitsVal ip).getD 0 : ℚ) +
          ((digitsVal fp).getD 0 : ℚ) / (10 : ℚ) ^ fp.length) * (10 : ℚ) ^ ex)
  | _ =>
    if ip = [] then none
    else (parseExp r1).map (fun ex => ((digitsVal ip).getD 0 : ℚ) * (10 : ℚ) ^ ex)

/-- Python `float(text)` modelled exactly over `ℚ` for finite decimal
literals: optional whitespace and sign, then a decimal mantissa with an
optional exponent.  Outside the model and treated as parse failures: the
non-finite literals (`inf`, `infinity`, `nan`), underscore digit
separators, and the overflow/underflow behaviour of binary doubles. -/
def pyFloat (s : String) : Option ℚ :=
  match (pyStrip s).data with
  | '+' :: r => pyFloatCore r
  | '-' :: r => (pyFloatCore r).map Neg.neg
  | r => pyFloatCore r

/-- Round to the nearest integer, ties to even (Python `round` tie rule). -/
def roundHalfEven (q : ℚ) : Int :=
  let f := ⌊q⌋
  let r := q - (f : ℚ)
  if r < 1 / 2 then f
  else if 1 / 2 < r then f + 1
  else if f % 2 = 0 then f else f + 1

/-- Python `round(x, 2)` modelled over exact rationals. -/
def round2 (q : ℚ) : ℚ := (roundHalfEven (q * 100) : ℚ) / 100

/-- Association-list lookup (Python dict access by key). -/
def alookup {β : Type} (l : List (String × β)) (k : String) : Option β :=
  match l with
  | [] => none
  | (k', v) :: t => if k' = k then some v else alookup t k

/-- Python dict assignment `d[k] = v`: replace the value if the key is
present, otherwise add the pair. -/
def updateAssoc {β : Type} (l : List (String × β)) (k : String) (v : β) :
    List (String × β) :=
  match l with
  | [] => [(k, v)]
  | (k', v') :: t => if k' = k then (k, v) :: t else (k', v') :: updateAssoc t k v

/-- Python `set.add`: insert an element if not already present. -/
def insertSet (l : List String) (s : String) : List String :=
  if s ∈ l then l else l ++ [s]

/-- Index `DictReader` resolves a column name to: the LAST occurrence of the
name in the header (later duplicates overwrite earlier ones in the dict
built by `zip(fieldnames, row)` plus the rest-value loop). -/
def lastIdx (header : List String) (c : String) : Option Nat :=
  match header with
  | [] => none
  | h :: t =>
    match lastIdx t c with
    | some i => some (i + 1)
    | none => if h = c then some 0 else none

/-- `row[c]` followed by `.strip()`-readiness: `KeyError` if the column is
not in the header; `AttributeError` (from `None.strip()`) if the row is too
short so the value is the rest-value `None`; otherwise the field string. -/
def getField (header row : List String) (c : String) : Except PyErr String :=
  match lastIdx header c with
  | none => .error (.keyError c)
  | some i =>
    match row.get? i with
    | some v => .ok v
    | none => .error (.attrError c)

/-- The `try`-block of `parse_csv`: the cell value for a row, given the
stripped renewal-due and ex-parte texts.  `float` failure (`ValueError`) and
a zero divisor (`ZeroDivisionError`) are caught and yield `none`, as does an
empty text (the `if renewal_due and ex_parte` guard). -/
def computeCell (renewal_due ex_parte : String) : Option ℚ :=
  if renewal_due ≠ "" ∧ ex_parte ≠ "" then
    match pyFloat ex_parte, pyFloat renewal_due with
    | some e, some r => if r = 0 then none else some (round2 (e / r * 100))
    | _, _ => none
  else none

/-- The date label `f"{mon}/1/{year}"` with `year = month[:4]` and
`mon = str(int(month[4:]))`. -/
def dateLabel (mon : Int) (month : String) : String :=
  toString mon ++ "/1/" ++ strTake month 4

/-- The mutable state of `parse_csv`'s row loop: `rows_by_month` (a
defaultdict of per-month dicts), `month_dates`, `states_seen`, `months_seen`. -/
structure AggState where
  rows_by_month : List (String × List (String × Option ℚ))
  month_dates : List (String × String)
  states_seen : List String
  months_seen : List String
deriving DecidableEq

/-- The state before the first row. -/
def initState : AggState := ⟨[], [], [], []⟩

/-- `rows_by_month[month][state] = v` on the defaultdict: fetch the month's
dict (empty if absent) and set the state's value. -/
def setCell (rbm : List (String × List (String × Option ℚ))) (m s : String)
    (v : Option ℚ) : List (String × List (String × Option ℚ)) :=
  updateAssoc rbm m (updateAssoc ((alookup rbm m).getD []) s v)

/-- `rows_by_month[m][s]` without defaultdict insertion: `some v` when month
`m` has an entry for state `s` (with recorded value `v`), else `none`. -/
def lookup2 (rbm : List (String × List (String × Option ℚ))) (m s : String) :
    Option (Option ℚ) :=
  alookup ((alookup rbm m).getD []) s

/-- `rows_by_month[m].get(s)`: the recorded value, or `None` when the
(month, state) pair was never recorded. -/
def getCell (rbm : List (String × List (String × Option ℚ))) (m s : String) :
    Option ℚ :=
  match lookup2 rbm m s with
  | some v => v
  | none => none

/-- All four state updates a fully processed row performs, in one record. -/
def applyFull (st : AggState) (state month : String) (mon : Int)
    (cell : Option ℚ) : AggState where
  rows_by_month := setCell st.rows_by_month month state cell
  month_dates := updateAssoc st.month_dates month (dateLabel mon month)
  states_seen := insertSet st.states_seen state
  months_seen := insertSet st.months_seen month

/-- One iteration of the `for row in reader` loop of `parse_csv`:
skip unless the stripped revision flag is exactly `"U"`; read and strip the
four data fields; record state and month; derive the date label (raising
`ValueError` on a malformed period tail); record the computed cell. -/
def processRecord (header : List String) (st : AggState) (row : List String) :
    Except PyErr AggState :=
  match getField header row colFlag with
  | .error e => .error e
  | .ok flagRaw =>
    if pyStrip flagRaw ≠ "U" then .ok st
    else
      match getField header row colState with
      | .error e => .error e
      | .ok stateRaw =>
        match getField header row colMonth with
        | .error e => .error e
        | .ok monthRaw =>
          match getField header row colRenewal with
          | .error e => .error e
          | .ok renewalRaw =>
            match getField header row colExParte with
            | .error e => .error e
            | .ok exRaw =>
              match pyInt (strDrop (pyStrip monthRaw) 4) with
              | none => .error (.valueError (strDrop (pyStrip monthRaw) 4))
              | some mon =>
                .ok (applyFull st (pyStrip stateRaw) (pyStrip monthRaw) mon
                  (computeCell (pyStrip renewalRaw) (pyStrip exRaw)))

/-- The whole `for row in reader` loop, threading the state. -/
def runRecords (header : List String) :
    AggState → List (List String) → Except PyErr AggState
  | st, [] => .ok st
  | st, row :: rest =>
    match processRecord header st row with
    | .error e => .error e
    | .ok st' => runRecords header st' rest

/-- One row of the output: the period identifier, the derived date label,
and one entry per state (in `states` order), mirroring the Python dict
`{"month": m, "date": month_dates[m], **per-state values}`. -/
structure RowEntry where
  month : String
  date : String
  cells : List (String × Option ℚ)
deriving DecidableEq

/-- The value of `parse_csv`: sorted state list and per-period rows. -/
structure Dataset where
  states : List String
  rows : List RowEntry
deriving DecidableEq

/-- The string order Python `sorted` uses: lexicographic by code point,
expressed on the underlying character lists (it agrees with `≤` on
`String`, see `sortStr_sorted`). -/
def strLe (a b : String) : Prop := a.data ≤ b.data

instance : DecidableRel strLe := fun a b => inferInstanceAs (Decidable (a.data ≤ b.data))

instance : IsTotal String strLe := ⟨fun a b => le_total a.data b.data⟩

instance : IsTrans String strLe := ⟨fun _ _ _ => le_trans⟩

/-- Python `sorted` on a list of distinct strings. -/
def sortStr (l : List String) : List String := List.insertionSort strLe l

/-- The `for m in months` output loop: look up the date label (`KeyError` if
absent, as `month_dates` is a plain dict) and build the dense per-state row. -/
def buildRows (st : AggState) (states : List String) :
    List String → Except PyErr (List RowEntry)
  | [] => .ok []
  | m :: ms =>
    match alookup st.month_dates m with
    | none => .error (.keyError m)
    | some d =>
      match buildRows st states ms with
      | .error e => .error e
      | .ok rest =>
        .ok ({ month := m, date := d,
               cells := states.map (fun s => (s, getCell st.rows_by_month m s)) } :: rest)

/-- The tail of `parse_csv` after the row loop: sort states and months,
build the dense rows, then the summary print accesses `months[0]`, raising
`IndexError` when no month was seen. -/
def finalize (st : AggState) : Except PyErr Dataset :=
  match buildRows st (sortStr st.states_seen) (sortStr st.months_seen) with
  | .error e => .error e
  | .ok all_rows =>
    if (sortStr st.months_seen).isEmpty then .error .indexError
    else .ok { states := sortStr st.states_seen, rows := all_rows }

/-- `parse_csv`: run the row loop over the non-blank rows (`DictReader`
skips blank rows) from the initial state, then finalize. -/
def parse_csv (input : RawInput) : Except PyErr Dataset :=
  match runRecords input.header initState (input.records.filter (fun r => !r.isEmpty)) with
  | .error e => .error e
  | .ok st => finalize st

/-- Specification-side view of one row: `some (month, state, cell)` when the
row is retained (stripped flag exactly `"U"`) and fully processable, with
the stripped period and state identifiers and the computed cell value. -/
def recordedCell (header row : List String) : Option (String × String × Option ℚ) :=
  match getField header row colFlag with
  | .error _ => none
  | .ok f =>
    if pyStrip f = "U" then
      match getField header row colState, getField header row colMonth,
            getField header row colRenewal, getField header row colExParte with
      | .ok sv, .ok mv, .ok rv, .ok ev =>
        match pyInt (strDrop (pyStrip mv) 4) with
        | some _ => some (pyStrip mv, pyStrip sv, computeCell (pyStrip rv) (pyStrip ev))
        | none => none
      | _, _, _, _ => none
    else none

/-- Specification-side view for the states claim: the stripped state
identifier of a retained row (stripped revision flag exactly `"U"`). -/
def retainedState (header row : List String) : Option String :=
  match getField header row colFlag with
  | .error _ => none
  | .ok f =>
    if pyStrip f = "U" then
      match getField header row colState with
      | .ok sv => some (pyStrip sv)
      | .error _ => none
    else none

/-- One step of the "last write wins" fold: the latest value recorded for
the (month `m`, state `s`) cell after also processing `row`. -/
def lastStep (header : List String) (m s : String)
    (acc : Option (Option ℚ)) (row : List String) : Option (Option ℚ) :=
  match recordedCell header row with
  | some (m', s', v) => if m' = m ∧ s' = s then some v else acc
  | none => acc

/-- The value the last retained row for pair (month `m`, state `s`) in
`records` computes, `none` if no retained row targets that pair. -/
def lastCell (header : List String) (records : List (List String))
    (m s : String) : Option (Option ℚ) :=
  records.foldl (lastStep header m s) none

/-- A JSON value, as produced by Python `json.dumps` on the dataset dict. -/
inductive Json where
  | null
  | str (s : String)
  | num (q : ℚ)
  | arr (elems : List Json)
  | obj (members : List (String × Json))

/-- Hexadecimal digit character (lowercase, as Python emits). -/
def hexDigit (n : Nat) : Char :=
  if n < 10 then Char.ofNat (48 + n) else Char.ofNat (87 + n)

/-- Four-digit lowercase hex of `n < 0x10000`. -/
def hex4 (n : Nat) : String :=
  ⟨[hexDigit (n / 4096 % 16), hexDigit (n / 256 % 16), hexDigit (n / 16 % 16), hexDigit (n % 16)]⟩

/-- Python `json.dumps` escaping of one character (default `ensure_ascii`):
short escapes for quote, backslash and common controls, `\uXXXX` for other
controls and all non-ASCII (surrogate pairs above the BMP). -/
def escapeChar (c : Char) : String :=
  if c = '"' then "\\\""
  else if c = '\\' then "\\\\"
  else if c = '\n' then "\\n"
  else if c = '\r' then "\\r"
  else if c = '\t' then "\\t"
  else if c = '\x08' then "\\b"
  else if c = '\x0c' then "\\f"
  else if c.toNat < 32 then "\\u" ++ hex4 c.toNat
  else if c.toNat ≤ 126 then ⟨[c]⟩
  else if c.toNat < 65536 then "\\u" ++ hex4 c.toNat
  else
    "\\u" ++ hex4 (55296 + (c.toNat - 65536) / 1024) ++
    "\\u" ++ hex4 (56320 + (c.toNat - 65536) % 1024)

/-- Python `json.dumps` on a string. -/
def dumpStr (s : String) : String :=
  "\"" ++ String.join (s.data.map escapeChar) ++ "\""

/-- Python `repr` of a float for the values this program serializes.  Rates
come from `round(_, 2)`, so the model covers rationals whose reduced
denominator divides 100 (the shortest decimal repr of such doubles); other
denominators do not occur in the program's datasets. -/
def dumpNum (q : ℚ) : String :=
  let sign := if q.num < 0 then "-" else ""
  let a := q.num.natAbs
  if q.den = 1 then sign ++ toString a ++ ".0"
  else if 100 % q.den = 0 then
    let scaled := a * (100 / q.den)
    let frac := scaled % 100
    sign ++ toString (scaled / 100) ++ "." ++
      (if frac % 10 = 0 then toString (frac / 10)
       else (if frac < 10 then "0" else "") ++ toString frac)
  else sign ++ toString a ++ "/" ++ toString q.den

/-- `json.dumps` with the default separators `", "` and `": "`, fuelled by
the nesting depth (structural recursion through the nested lists). -/
def dumpsF : Nat → Json → String
  | 0, _ => ""
  | _ + 1, .null => "null"
  | _ + 1, .str s => dumpStr s
  | _ + 1, .num q => dumpNum q
  | fuel + 1, .arr l => "[" ++ String.intercalate ", " (l.map (dumpsF fuel)) ++ "]"
  | fuel + 1, .obj l =>
    "\x7b" ++
      String.intercalate ", " (l.map (fun kv => dumpStr kv.1 ++ ": " ++ dumpsF fuel kv.2)) ++
    "\x7d"

/-- One output row as the JSON object
`{"month": ..., "date": ..., "<state>": <number or null>, ...}`. -/
def rowToJson (r : RowEntry) : Json :=
  .obj (("month", .str r.month) :: ("date", .str r.date) ::
    r.cells.map (fun c => (c.1, match c.2 with | some q => .num q | none => .null)))

/-- The dataset dict as the JSON value `json.dumps` receives. -/
def datasetToJson (d : Dataset) : Json :=
  .obj [("states", .arr (d.states.map .str)), ("rows", .arr (d.rows.map rowToJson))]

/-- `json.dumps(data)`: a dataset's JSON has nesting depth at most 4, so
fuel 5 is exact. -/
def dumps (d : Dataset) : String := dumpsF 5 (datasetToJson d)

/-- The literal text the regex starts with: `// INJECT_DATA_START` plus the
newline the pattern requires. -/
def markerS : List Char := "// INJECT_DATA_START\n".data

/-- The literal text the regex ends with: `// INJECT_DATA_END`. -/
def markerE : List Char := "// INJECT_DATA_END".data

/-- First index at which `pat` occurs as a contiguous sublist of `s`. -/
def findSub (pat : List Char) : List Char → Option Nat
  | [] => if pat.isEmpty then some 0 else none
  | c :: rest =>
    if pat.isPrefixOf (c :: rest) then some 0
    else (findSub pat rest).map (· + 1)

/-- `re.sub(r"// INJECT_DATA_START\n.*?// INJECT_DATA_END", repl, s, flags=re.DOTALL)`:
replace every non-overlapping match, scanning left to right; each match
runs from an occurrence of the start literal through the FIRST occurrence
of the end literal after it (the lazy `.*?`, with `.` matching newlines).
If the start literal never occurs, or no end literal follows it, no
position can match and the text is returned unchanged.  Fuel bounds the
match count (one fuel per match; each match consumes text, so
`length + 1` fuel never runs out). -/
def subAllAux (repl : List Char) : Nat → List Char → List Char
  | 0, s => s
  | fuel + 1, s =>
    match findSub markerS s with
    | none => s
    | some i =>
      match findSub markerE (s.drop (i + markerS.length)) with
      | none => s
      | some j =>
        s.take i ++ repl ++
          subAllAux repl fuel ((s.drop (i + markerS.length)).drop (j + markerE.length))

/-- The replacement string `re.sub` receives:
`f"// INJECT_DATA_START\nconst INJECTED = {payload};\n// INJECT_DATA_END"`
(the `\n` here are literal newlines from the f-string; any backslashes come
from the `json.dumps` payload). -/
def replChars (data : Dataset) : List Char :=
  ("// INJECT_DATA_START\nconst INJECTED = " ++ dumps data ++ ";\n// INJECT_DATA_END").data

/-- CPython's parsing of a `re.sub` replacement string (`sre parse_template`)
for a pattern with no capture groups, done eagerly BEFORE any match is
attempted.  Recognized escapes `\a \b \f \n \r \t \v \\` are translated; a
backslash before any other ASCII letter (such as the `\uXXXX` that
`json.dumps` emits for non-ASCII text) raises `re.error: bad escape`; a
trailing backslash raises; a backslash before a non-letter is kept verbatim.
Group references and octal escapes (`\g...`, `\` + digit) are mapped to
errors: with this program's pattern every group reference is invalid, and
its payloads never put a digit after a backslash (`json.dumps` only emits
`\" \\ \n \r \t \b \f \uXXXX`), so the octal case `\0` is never reached. -/
def parseTemplate : List Char → Except String (List Char)
  | [] => .ok []
  | ['\\'] => .error "bad escape (end of pattern)"
  | '\\' :: c :: rest =>
    if c = '\\' then (parseTemplate rest).map (fun t => '\\' :: t)
    else if c = 'n' then (parseTemplate rest).map (fun t => '\n' :: t)
    else if c = 'r' then (parseTemplate rest).map (fun t => '\r' :: t)
    else if c = 't' then (parseTemplate rest).map (fun t => '\t' :: t)
    else if c = 'a' then (parseTemplate rest).map (fun t => '\x07' :: t)
    else if c = 'b' then (parseTemplate rest).map (fun t => '\x08' :: t)
    else if c = 'f' then (parseTemplate rest).map (fun t => '\x0c' :: t)
    else if c = 'v' then (parseTemplate rest).map (fun t => '\x0b' :: t)
    else if c.isAlpha then .error ("bad escape \\" ++ ⟨[c]⟩)
    else if c.isDigit || c == 'g' then .error "invalid group reference"
    else (parseTemplate rest).map (fun t => '\\' :: c :: t)
  | c :: rest => (parseTemplate rest).map (fun t => c :: t)

/-- Core substitution of `build_html` (the scanning/splicing part of
`re.sub` after the replacement template has been processed): substitute
`repl` for every pattern match in the template.  Exact for this program's
renderer whenever the processed replacement equals the raw one, i.e. when
the payload contains no backslash escapes — as in the C9 example (see
`build_html_checked` for the full model with the eager replacement
compile). -/
def build_html (data : Dataset) (template : String) : String :=
  ⟨subAllAux (replChars data) (template.data.length + 1) template.data⟩

/-- `build_html`'s full text transformation,
`re.sub(r"// INJECT_DATA_START\n.*?// INJECT_DATA_END", repl, template, flags=re.DOTALL)`:
the replacement template is compiled FIRST (raising `re.error` on a bad
escape even when nothing will match), then the processed replacement is
substituted for every match.  (The file read/write around it is the
external writer collaborator.) -/
def build_html_checked (data : Dataset) (template : String) : Except String String :=
  match parseTemplate (replChars data) with
  | .error e => .error e
  | .ok processed => .ok ⟨subAllAux processed (template.data.length + 1) template.data⟩

/-- A value of the Python row dict `entry`: the `month`/`date` labels are
strings, the per-state cells are floats or `None`. -/
inductive PyVal where
  | str (s : String)
  | num (v : Option ℚ)
deriving DecidableEq

/-- The Python dict built for one output row:
`entry = {"month": m, "date": month_dates[m]}` followed by
`entry[s] = rows_by_month[m].get(s)` for each `s` in `states` — expressed
over the row's cell list, which for every row the aggregator outputs is
exactly `[(s, rows_by_month[m].get(s)) for s in states]` (`buildRows_ok`).
Because `entry[s] = ...` is a dict assignment, a state identifier literally
equal to `"month"` or `"date"` OVERWRITES that key. -/
def pyEntry (r : RowEntry) : List (String × PyVal) :=
  r.cells.foldl (fun e c => updateAssoc e c.1 (PyVal.num c.2))
    [("month", PyVal.str r.month), ("date", PyVal.str r.date)]

/-- Whether the template contains the marker pattern the regex needs: the
start literal with an occurrence of the end literal after it. -/
def hasMarker (t : String) : Bool :=
  match findSub markerS t.data with
  | none => false
  | some i =>
    match findSub markerE (t.data.drop (i + markerS.length)) with
    | none => false
    | some _ => true

/-! ### Association list, set and field-lookup lemmas -/

theorem alookup_updateAssoc_self {β : Type} (l : List (String × β)) (k : String) (v : β) :
    alookup (updateAssoc l k v) k = some v := by
  induction l with
  | nil => simp [updateAssoc, alookup]
  | cons h t ih =>
    obtain ⟨k', v'⟩ := h
    by_cases hk : k' = k
    · simp [updateAssoc, hk, alookup]
    · simp [updateAssoc, hk, alookup, ih]

theorem alookup_updateAssoc_ne {β : Type} (l : List (String × β)) (k v k')
    (h : k ≠ k') : alookup (updateAssoc l k v) k' = alookup l k' := by
  induction l with
  | nil => simp [updateAssoc, alookup, h]
  | cons hd t ih =>
    obtain ⟨a, b⟩ := hd
    by_cases ha : a = k
    · subst ha
      simp [updateAssoc, alookup, h]
    · simp [updateAssoc, ha, alookup, ih]

theorem mem_insertSet {l : List String} {s a : String} :
    a ∈ insertSet l s ↔ a ∈ l ∨ a = s := by
  unfold insertSet
  split_ifs with h
  · constructor
    · exact fun ha => Or.inl ha
    · rintro (ha | rfl) <;> [exact ha; exact h]
  · simp

theorem nodup_insertSet {l : List String} {s : String} (h : l.Nodup) :
    (insertSet l s).Nodup := by
  unfold insertSet
  split_ifs with hs
  · exact h
  · simp [List.nodup_append, h, hs]

theorem lastIdx_eq_none {header : List String} {c : String} :
    lastIdx header c = none ↔ c ∉ header := by
  induction header with
  | nil => simp [lastIdx]
  | cons h t ih =>
    unfold lastIdx
    cases hl : lastIdx t c with
    | some i =>
      have hct : c ∈ t := by
        by_contra hc
        rw [ih.mpr hc] at hl
        exact Option.noConfusion hl
      simp [hct]
    | none =>
      have hct : c ∉ t := ih.mp hl
      by_cases hc : h = c
      · subst hc
        simp
      · simp only [if_neg hc]
        simp [hct]
        exact fun hch => hc hch.symm

theorem getField_err_of_not_mem {header row : List String} {c : String}
    (h : c ∉ header) : getField header row c = .error (.keyError c) := by
  unfold getField
  rw [lastIdx_eq_none.mpr h]

theorem getField_ok_ne_nil {header row : List String} {c v : String}
    (h : getField header row c = .ok v) : row ≠ [] := by
  rintro rfl
  unfold getField at h
  cases hi : lastIdx header c <;> rw [hi] at h <;> simp at h

theorem lookup2_setCell (rbm : List (String × List (String × Option ℚ)))
    (m0 s0 : String) (v : Option ℚ) (m s : String) :
    lookup2 (setCell rbm m0 s0 v) m s =
      if m0 = m ∧ s0 = s then some v else lookup2 rbm m s := by
  unfold setCell lookup2
  by_cases hm : m0 = m
  · subst hm
    rw [alookup_updateAssoc_self]
    by_cases hs : s0 = s
    · subst hs
      simp [alookup_updateAssoc_self]
    · simp only [Option.getD_some, hs, and_false, if_false]
      rw [alookup_updateAssoc_ne _ _ _ _ hs]
  · rw [alookup_updateAssoc_ne _ _ _ _ hm]
    simp [hm]

/-! ### Characterization of one loop step -/

theorem step_skip {header row : List String} {f : String} (st : AggState)
    (hf : getField header row colFlag = .ok f) (hne : pyStrip f ≠ "U") :
    processRecord header st row = .ok st := by
  unfold processRecord
  rw [hf]
  simp [hne]

theorem step_full {header row : List String} {f sv mv rv ev : String} {mon : Int}
    (st : AggState)
    (hf : getField header row colFlag = .ok f) (hU : pyStrip f = "U")
    (hs : getField header row colState = .ok sv)
    (hm : getField header row colMonth = .ok mv)
    (hr : getField header row colRenewal = .ok rv)
    (he : getField header row colExParte = .ok ev)
    (hmon : pyInt (strDrop (pyStrip mv) 4) = some mon) :
    processRecord header st row =
      .ok (applyFull st (pyStrip sv) (pyStrip mv) mon
        (computeCell (pyStrip rv) (pyStrip ev))) := by
  unfold processRecord
  rw [hf]
  simp only [hU, ne_eq, not_true_eq_false, if_false, ite_false]
  rw [hs, hm, hr, he]
  simp only [hmon]

theorem recordedCell_eq_skip {header row : List String} {f : String}
    (hf : getField header row colFlag = .ok f) (hne : pyStrip f ≠ "U") :
    recordedCell header row = none ∧ retainedState header row = none := by
  unfold recordedCell retainedState
  rw [hf]
  simp [hne]

theorem recordedCell_eq_full {header row : List String} {f sv mv rv ev : String} {mon : Int}
    (hf : getField header row colFlag = .ok f) (hU : pyStrip f = "U")
    (hs : getField header row colState = .ok sv)
    (hm : getField header row colMonth = .ok mv)
    (hr : getField header row colRenewal = .ok rv)
    (he : getField header row colExParte = .ok ev)
    (hmon : pyInt (strDrop (pyStrip mv) 4) = some mon) :
    recordedCell header row =
      some (pyStrip mv, pyStrip sv, computeCell (pyStrip rv) (pyStrip ev)) ∧
    retainedState header row = some (pyStrip sv) := by
  unfold recordedCell retainedState
  rw [hf]
  simp only [hU, if_true, ite_true]
  rw [hs, hm, hr, he]
  simp [hmon]

/-- Every successful loop step is either a skip (revision flag read but not
`"U"`) leaving the state unchanged, or a fully processed retained row whose
four updates are `applyFull`. -/
theorem step_ok_cases {header row : List String} {st st' : AggState}
    (h : processRecord header st row = .ok st') :
    (st' = st ∧ recordedCell header row = none ∧ retainedState header row = none) ∨
    (∃ state month mon cell,
      recordedCell header row = some (month, state, cell) ∧
      retainedState header row = some state ∧
      st' = applyFull st state month mon cell) := by
  unfold processRecord at h
  split at h
  · exact absurd h (by simp)
  · rename_i f hf
    split at h
    · rename_i hne
      obtain ⟨hrec, hret⟩ := recordedCell_eq_skip hf hne
      cases h
      exact Or.inl ⟨rfl, hrec, hret⟩
    · rename_i hne
      have hU : pyStrip f = "U" := not_not.mp hne
      split at h
      · exact absurd h (by simp)
      · rename_i sv hs
        split at h
        · exact absurd h (by simp)
        · rename_i mv hm
          split at h
          · exact absurd h (by simp)
          · rename_i rv hr
            split at h
            · exact absurd h (by simp)
            · rename_i ev he
              split at h
              · exact absurd h (by simp)
              · rename_i mon hmon
                cases h
                obtain ⟨hrec, hret⟩ := recordedCell_eq_full hf hU hs hm hr he hmon
                exact Or.inr ⟨pyStrip sv, pyStrip mv, mon,
                  computeCell (pyStrip rv) (pyStrip ev), hrec, hret, rfl⟩

/-! ### Invariants of the row loop -/

theorem runRecords_append (header : List String) (l1 l2 : List (List String))
    (st : AggState) :
    runRecords header st (l1 ++ l2) =
      match runRecords header st l1 with
      | .error e => .error e
      | .ok st' => runRecords header st' l2 := by
  induction l1 generalizing st with
  | nil => simp [runRecords]
  | cons row rest ih =>
    simp only [List.cons_append, runRecords]
    cases processRecord header st row <;> simp [ih]

theorem runRecords_states (header : List String) :
    ∀ (records : List (List String)) (st st' : AggState),
      runRecords header st records = .ok st' →
      ∀ s, s ∈ st'.states_seen ↔
        s ∈ st.states_seen ∨
        ∃ row ∈ records, ∃ m v, recordedCell header row = some (m, s, v) := by
  intro records
  induction records with
  | nil =>
    intro st st' h s
    cases h
    simp
  | cons row rest ih =>
    intro st st' h s
    unfold runRecords at h
    cases hp : processRecord header st row with
    | error e => rw [hp] at h; exact absurd h (by simp)
    | ok st1 =>
      rw [hp] at h
      rcases step_ok_cases hp with ⟨rfl, hrec, _⟩ | ⟨state, month, mon, cell, hrec, _, rfl⟩
      · rw [ih st1 st' h s]
        simp [hrec]
      · rw [ih _ st' h s]
        simp only [applyFull, mem_insertSet, hrec, List.mem_cons]
        constructor
        · rintro ((hm | rfl) | hrest)
          · exact Or.inl hm
          · exact Or.inr ⟨row, Or.inl rfl, month, cell, hrec⟩
          · obtain ⟨r, hr, hx⟩ := hrest
            exact Or.inr ⟨r, Or.inr hr, hx⟩
        · rintro (hm | ⟨r, (rfl | hr), hx⟩)
          · exact Or.inl (Or.inl hm)
          · obtain ⟨m', v', hv⟩ := hx
            rw [hrec] at hv
            injection hv with hv'
            have h2 : state = s := congrArg (fun p => p.2.1) hv'
            exact Or.inl (Or.inr h2.symm)
          · exact Or.inr ⟨r, hr, hx⟩

theorem runRecords_months (header : List String) :
    ∀ (records : List (List String)) (st st' : AggState),
      runRecords header st records = .ok st' →
      ∀ m, m ∈ st'.months_seen ↔
        m ∈ st.months_seen ∨
        ∃ row ∈ records, ∃ s v, recordedCell header row = some (m, s, v) := by
  intro records
  induction records with
  | nil =>
    intro st st' h m
    cases h
    simp
  | cons row rest ih =>
    intro st st' h m
    unfold runRecords at h
    cases hp : processRecord header st row with
    | error e => rw [hp] at h; exact absurd h (by simp)
    | ok st1 =>
      rw [hp] at h
      rcases step_ok_cases hp with ⟨rfl, hrec, _⟩ | ⟨state, month, mon, cell, hrec, _, rfl⟩
      · rw [ih st1 st' h m]
        simp [hrec]
      · rw [ih _ st' h m]
        simp only [applyFull, mem_insertSet, hrec, List.mem_cons]
        constructor
        · rintro ((hm | rfl) | hrest)
          · exact Or.inl hm
          · exact Or.inr ⟨row, Or.inl rfl, state, cell, hrec⟩
          · obtain ⟨r, hr, hx⟩ := hrest
            exact Or.inr ⟨r, Or.inr hr, hx⟩
        · rintro (hm | ⟨r, (rfl | hr), hx⟩)
          · exact Or.inl (Or.inl hm)
          · obtain ⟨s', v', hv⟩ := hx
            rw [hrec] at hv
            injection hv with hv'
            have h1 : month = m := congrArg (fun p => p.1) hv'
            exact Or.inl (Or.inr h1.symm)
          · exact Or.inr ⟨r, hr, hx⟩

theorem runRecords_nodup (header : List String) :
    ∀ (records : List (List String)) (st st' : AggState),
      runRecords header st records = .ok st' →
      st.states_seen.Nodup → st.months_seen.Nodup →
      st'.states_seen.Nodup ∧ st'.months_seen.Nodup := by
  intro records
  induction records with
  | nil =>
    intro st st' h h1 h2
    cases h
    exact ⟨h1, h2⟩
  | cons row rest ih =>
    intro st st' h h1 h2
    unfold runRecords at h
    cases hp : processRecord header st row with
    | error e => rw [hp] at h; exact absurd h (by simp)
    | ok st1 =>
      rw [hp] at h
      rcases step_ok_cases hp with ⟨rfl, -, -⟩ | ⟨state, month, mon, cell, -, -, rfl⟩
      · exact ih st1 st' h h1 h2
      · exact ih _ st' h (nodup_insertSet h1) (nodup_insertSet h2)

theorem runRecords_cells (header : List String) :
    ∀ (records : List (List String)) (st st' : AggState),
      runRecords header st records = .ok st' →
      ∀ m s, lookup2 st'.rows_by_month m s =
        records.foldl (lastStep header m s) (lookup2 st.rows_by_month m s) := by
  intro records
  induction records with
  | nil =>
    intro st st' h m s
    cases h
    simp
  | cons row rest ih =>
    intro st st' h m s
    unfold runRecords at h
    cases hp : processRecord header st row with
    | error e => rw [hp] at h; exact absurd h (by simp)
    | ok st1 =>
      rw [hp] at h
      rcases step_ok_cases hp with ⟨rfl, hrec, -⟩ | ⟨state, month, mon, cell, hrec, -, rfl⟩
      · rw [ih st1 st' h m s]
        simp [List.foldl_cons, lastStep, hrec]
      · rw [ih _ st' h m s]
        simp only [List.foldl_cons, lastStep, hrec, applyFull]
        rw [lookup2_setCell]

theorem runRecords_all_ok (header : List String) :
    ∀ (records : List (List String)) (st st' : AggState),
      runRecords header st records = .ok st' →
      ∀ row ∈ records, ∃ a b, processRecord header a row = .ok b := by
  intro records
  induction records with
  | nil => intro st st' _ row hrow; simp at hrow
  | cons r rest ih =>
    intro st st' h row hrow
    unfold runRecords at h
    cases hp : processRecord header st r with
    | error e => rw [hp] at h; exact absurd h (by simp)
    | ok st1 =>
      rw [hp] at h
      rcases List.mem_cons.mp hrow with rfl | hrow'
      · exact ⟨st, st1, hp⟩
      · exact ih st1 st' h row hrow'

theorem runRecords_all_skip (header : List String) :
    ∀ (records : List (List String)) (st : AggState),
      (∀ row ∈ records, processRecord header st row = .ok st) →
      runRecords header st records = .ok st := by
  intro records
  induction records with
  | nil => intro st _; rfl
  | cons r rest ih =>
    intro st hall
    unfold runRecords
    rw [hall r (List.mem_cons_self r rest)]
    exact ih st (fun row hrow => hall row (List.mem_cons_of_mem r hrow))

/-! ### Sorting, finalization and bridging lemmas -/

theorem sortStr_sorted (l : List String) : (sortStr l).Sorted (· ≤ ·) :=
  (List.sorted_insertionSort strLe l).imp
    (fun h => String.le_iff_toList_le.mpr h)

theorem sortStr_perm (l : List String) : List.Perm (sortStr l) l :=
  List.perm_insertionSort strLe l

theorem mem_sortStr {l : List String} {a : String} : a ∈ sortStr l ↔ a ∈ l :=
  (sortStr_perm l).mem_iff

theorem nodup_sortStr {l : List String} (h : l.Nodup) : (sortStr l).Nodup :=
  ((sortStr_perm l).nodup_iff).mpr h

theorem buildRows_ok (st : AggState) (states : List String) :
    ∀ (months : List String) (all_rows : List RowEntry),
      buildRows st states months = .ok all_rows →
      all_rows.map (fun r => r.month) = months ∧
      ∀ r ∈ all_rows,
        r.cells = states.map (fun s => (s, getCell st.rows_by_month r.month s)) := by
  intro months
  induction months with
  | nil =>
    intro all_rows h
    cases h
    simp
  | cons m ms ih =>
    intro all_rows h
    unfold buildRows at h
    cases hd : alookup st.month_dates m with
    | none => rw [hd] at h; exact absurd h (by simp)
    | some d =>
      rw [hd] at h
      cases hb : buildRows st states ms with
      | error e => rw [hb] at h; exact absurd h (by simp)
      | ok rest =>
        rw [hb] at h
        cases h
        obtain ⟨hmap, hcells⟩ := ih rest hb
        refine ⟨by simp [hmap], ?_⟩
        intro r hr
        rcases List.mem_cons.mp hr with rfl | hr'
        · simp
        · exact hcells r hr'

theorem parse_ok_elim {input : RawInput} {d : Dataset}
    (h : parse_csv input = .ok d) :
    ∃ st, runRecords input.header initState
        (input.records.filter (fun r => !r.isEmpty)) = .ok st ∧
      finalize st = .ok d := by
  unfold parse_csv at h
  cases hr : runRecords input.header initState
      (input.records.filter (fun r => !r.isEmpty)) with
  | error e => rw [hr] at h; exact absurd h (by simp)
  | ok st => rw [hr] at h; exact ⟨st, rfl, h⟩

theorem finalize_ok_elim {st : AggState} {d : Dataset}
    (h : finalize st = .ok d) :
    d.states = sortStr st.states_seen ∧
    buildRows st (sortStr st.states_seen) (sortStr st.months_seen) = .ok d.rows ∧
    (sortStr st.months_seen).isEmpty = false := by
  unfold finalize at h
  cases hb : buildRows st (sortStr st.states_seen) (sortStr st.months_seen) with
  | error e => rw [hb] at h; exact absurd h (by simp)
  | ok all_rows =>
    rw [hb] at h
    dsimp only at h
    by_cases he : (sortStr st.months_seen).isEmpty
    · rw [if_pos he] at h
      exact absurd h (by simp)
    · rw [if_neg he] at h
      cases h
      exact ⟨rfl, rfl, by simpa using he⟩

theorem recordedCell_nil (header : List String) : recordedCell header [] = none := by
  unfold recordedCell getField
  cases hi : lastIdx header colFlag <;> simp

theorem retainedState_nil (header : List String) : retainedState header [] = none := by
  unfold retainedState getField
  cases hi : lastIdx header colFlag <;> simp

theorem lastStep_nil (header : List String) (m s : String) (acc : Option (Option ℚ)) :
    lastStep header m s acc [] = acc := by
  unfold lastStep
  rw [recordedCell_nil]

theorem foldl_lastStep_filter (header : List String) (m s : String) :
    ∀ (records : List (List String)) (acc : Option (Option ℚ)),
      (records.filter (fun r => !r.isEmpty)).foldl (lastStep header m s) acc =
        records.foldl (lastStep header m s) acc := by
  intro records
  induction records with
  | nil => intro acc; rfl
  | cons r rest ih =>
    intro acc
    by_cases he : r = []
    · subst he
      simp [List.filter_cons, lastStep_nil, ih]
    · have : (!List.isEmpty r) = true := by
        simpa [List.isEmpty_iff] using he
      simp [List.filter_cons, this, ih]

theorem lastCell_filter (header : List String) (records : List (List String))
    (m s : String) :
    lastCell header (records.filter (fun r => !r.isEmpty)) m s =
      lastCell header records m s :=
  foldl_lastStep_filter header m s records none

theorem foldl_lastStep_some_mem (header : List String) (m s : String) :
    ∀ (records : List (List String)) (acc : Option (Option ℚ)) (v : Option ℚ),
      records.foldl (lastStep header m s) acc = some v →
      (∃ row ∈ records, ∃ v', recordedCell header row = some (m, s, v')) ∨ acc = some v := by
  intro records
  induction records with
  | nil => intro acc v h; exact Or.inr h
  | cons r rest ih =>
    intro acc v h
    rw [List.foldl_cons] at h
    rcases ih (lastStep header m s acc r) v h with ⟨row, hrow, hx⟩ | hacc
    · exact Or.inl ⟨row, List.mem_cons_of_mem r hrow, hx⟩
    · unfold lastStep at hacc
      cases hrec : recordedCell header r with
      | none => rw [hrec] at hacc; exact Or.inr hacc
      | some trip =>
        rw [hrec] at hacc
        obtain ⟨m', s', v'⟩ := trip
        dsimp only at hacc
        by_cases hms : m' = m ∧ s' = s
        · obtain ⟨rfl, rfl⟩ := hms
          exact Or.inl ⟨r, List.mem_cons_self r rest, v', hrec⟩
        · rw [if_neg hms] at hacc
          exact Or.inr hacc

theorem alookup_graph {β : Type} (g : String → β) (s : String) :
    ∀ l : List String,
      alookup (l.map (fun t => (t, g t))) s = if s ∈ l then some (g s) else none := by
  intro l
  induction l with
  | nil => simp [alookup]
  | cons t rest ih =>
    by_cases ht : t = s
    · subst ht
      simp [alookup]
    · simp only [List.map_cons, alookup, ht, if_false]
      rw [ih]
      simp [Ne.symm ht]

theorem countP_graph {β : Type} (g : String → β) (s : String) (l : List String) :
    (l.map (fun t => (t, g t))).countP (fun c => c.1 == s) = l.count s := by
  rw [List.countP_map]
  rfl

theorem recordedCell_some_elim {header row : List String} {m s : String} {v : Option ℚ}
    (h : recordedCell header row = some (m, s, v)) :
    ∃ f sv mv rv ev mon,
      getField header row colFlag = .ok f ∧ pyStrip f = "U" ∧
      getField header row colState = .ok sv ∧
      getField header row colMonth = .ok mv ∧
      getField header row colRenewal = .ok rv ∧
      getField header row colExParte = .ok ev ∧
      pyInt (strDrop (pyStrip mv) 4) = some mon ∧
      m = pyStrip mv ∧ s = pyStrip sv ∧ v = computeCell (pyStrip rv) (pyStrip ev) := by
  unfold recordedCell at h
  split at h
  · exact absurd h (by simp)
  · rename_i f hf
    split at h
    · rename_i hU
      split at h
      · rename_i sv mv rv ev hs hm hr he
        split at h
        · rename_i mon hmon
          injection h with h'
          exact ⟨f, sv, mv, rv, ev, mon, hf, hU, hs, hm, hr, he, hmon,
            (congrArg (fun p => p.1) h').symm,
            (congrArg (fun p => p.2.1) h').symm,
            (congrArg (fun p => p.2.2) h').symm⟩
        · exact absurd h (by simp)
      · exact absurd h (by simp)
    · exact absurd h (by simp)

theorem retainedState_some_elim {header row : List String} {s : String}
    (h : retainedState header row = some s) :
    ∃ f sv,
      getField header row colFlag = .ok f ∧ pyStrip f = "U" ∧
      getField header row colState = .ok sv ∧ s = pyStrip sv := by
  unfold retainedState at h
  split at h
  · exact absurd h (by simp)
  · rename_i f hf
    split at h
    · rename_i hU
      split at h
      · rename_i sv hs
        injection h with h'
        exact ⟨f, sv, hf, hU, hs, h'.symm⟩
      · exact absurd h (by simp)
    · exact absurd h (by simp)

/-! ### Row-dict lemmas -/

theorem keys_updateAssoc {β : Type} (e : List (String × β)) (k : String) (v : β) :
    (updateAssoc e k v).map Prod.fst =
      if k ∈ e.map Prod.fst then e.map Prod.fst else e.map Prod.fst ++ [k] := by
  induction e with
  | nil => simp [updateAssoc]
  | cons hd t ih =>
    obtain ⟨a, b⟩ := hd
    by_cases ha : a = k
    · subst ha
      simp [updateAssoc]
    · simp only [updateAssoc, ha, if_false, List.map_cons, ih]
      by_cases hk : k ∈ t.map Prod.fst
      · simp [hk, Ne.symm ha]
      · simp [hk, Ne.symm ha]

theorem nodup_keys_updateAssoc {β : Type} {e : List (String × β)} {k : String} {v : β}
    (h : (e.map Prod.fst).Nodup) : ((updateAssoc e k v).map Prod.fst).Nodup := by
  rw [keys_updateAssoc]
  by_cases hk : k ∈ e.map Prod.fst
  · rwa [if_pos hk]
  · rw [if_neg hk]
    simp [List.nodup_append, h, hk]

theorem alookup_some_mem_keys {β : Type} {e : List (String × β)} {s : String} {v : β}
    (h : alookup e s = some v) : s ∈ e.map Prod.fst := by
  induction e with
  | nil => simp [alookup] at h
  | cons hd t ih =>
    obtain ⟨a, b⟩ := hd
    unfold alookup at h
    by_cases ha : a = s
    · subst ha
      simp
    · rw [if_neg ha] at h
      simpa using Or.inr (ih h)

theorem nodup_keys_foldl :
    ∀ (cells : List (String × Option ℚ)) (e : List (String × PyVal)),
      (e.map Prod.fst).Nodup →
      ((cells.foldl (fun e c => updateAssoc e c.1 (PyVal.num c.2)) e).map Prod.fst).Nodup := by
  intro cells
  induction cells with
  | nil => intro e he; exact he
  | cons c rest ih =>
    intro e he
    exact ih _ (nodup_keys_updateAssoc he)

theorem alookup_foldl_notmem :
    ∀ (cells : List (String × Option ℚ)) (e : List (String × PyVal)) (k : String),
      (∀ c ∈ cells, c.1 ≠ k) →
      alookup (cells.foldl (fun e c => updateAssoc e c.1 (PyVal.num c.2)) e) k =
        alookup e k := by
  intro cells
  induction cells with
  | nil => intro e k _; rfl
  | cons c rest ih =>
    intro e k hne
    rw [List.foldl_cons]
    rw [ih _ k (fun c' hc' => hne c' (List.mem_cons_of_mem c hc'))]
    exact alookup_updateAssoc_ne _ _ _ _ (hne c (List.mem_cons_self c rest))

theorem alookup_foldl_mem :
    ∀ (cells : List (String × Option ℚ)) (e : List (String × PyVal)) (s : String)
      (v : Option ℚ),
      (cells.map Prod.fst).Nodup → alookup cells s = some v →
      alookup (cells.foldl (fun e c => updateAssoc e c.1 (PyVal.num c.2)) e) s =
        some (PyVal.num v) := by
  intro cells
  induction cells with
  | nil => intro e s v _ hl; simp [alookup] at hl
  | cons c rest ih =>
    intro e s v hnd hl
    obtain ⟨a, b⟩ := c
    rw [List.map_cons, List.nodup_cons] at hnd
    unfold alookup at hl
    rw [List.foldl_cons]
    by_cases ha : a = s
    · subst ha
      rw [if_pos rfl] at hl
      injection hl with hv
      subst hv
      have hnotmem : ∀ c' ∈ rest, c'.1 ≠ a := by
        intro c' hc' heq
        have hmem : c'.1 ∈ rest.map Prod.fst := List.mem_map_of_mem Prod.fst hc'
        rw [heq] at hmem
        exact hnd.1 hmem
      rw [alookup_foldl_notmem rest _ a hnotmem]
      exact alookup_updateAssoc_self _ _ _
    · rw [if_neg ha] at hl
      exact ih _ s v hnd.2 hl

theorem countP_keys {β : Type} (e : List (String × β)) (s : String) :
    e.countP (fun c => c.1 == s) = (e.map Prod.fst).count s := by
  rw [show (e.map Prod.fst).count s = (e.map Prod.fst).countP (fun x => x == s) from rfl,
    List.countP_map]
  rfl

/-! ### The claims -/

/-- C2: a data row whose revision-flag field, trimmed of surrounding
whitespace, is not exactly `"U"` has no effect on the aggregator's output:
deleting such a row from the raw input (anywhere in the record list) leaves
`parse_csv`'s result unchanged, so it contributes no state, no period and no
cell value; in particular `"u"`, `"O"` and `"Updated"` rows are discarded. -/
theorem C2_nonU_row_has_no_effect (header : List String) (pre post : List (List String))
    (row : List String) (f : String)
    (hf : getField header row colFlag = .ok f) (hne : pyStrip f ≠ "U") :
    parse_csv ⟨header, pre ++ row :: post⟩ = parse_csv ⟨header, pre ++ post⟩ := by
  have hrow : (!row.isEmpty) = true := by
    simpa [List.isEmpty_iff] using getField_ok_ne_nil hf
  have key : ∀ st : AggState,
      runRecords header st ((pre ++ row :: post).filter (fun r => !r.isEmpty)) =
      runRecords header st ((pre ++ post).filter (fun r => !r.isEmpty)) := by
    intro st
    simp only [List.filter_append, List.filter_cons, hrow, if_true]
    rw [runRecords_append, runRecords_append]
    cases hmid : runRecords header st (pre.filter (fun r => !r.isEmpty)) with
    | error e => rfl
    | ok stmid =>
      dsimp only
      simp only [runRecords]
      rw [step_skip stmid hf hne]
  unfold parse_csv
  dsimp only
  rw [key initState]

/-- C2 witness: an `"O"` row is dropped — the two-row input gives the same
result as the input without it. -/
theorem C2_witness :
    parse_csv ⟨requiredCols,
      [] ++ ["O", "CA", "202301", "1", "2"] :: [["U", "CA", "202301", "", ""]]⟩ =
    parse_csv ⟨requiredCols, [] ++ [["U", "CA", "202301", "", ""]]⟩ :=
  C2_nonU_row_has_no_effect requiredCols [] [["U", "CA", "202301", "", ""]]
    ["O", "CA", "202301", "1", "2"] "O" (by decide) (by decide)

/-- C7: when the header lacks one of the five required column names,
`parse_csv` never returns a dataset: it raises (`KeyError` on the first row
that reaches the missing column, or `IndexError` when no row does) — the
fatal `FormatError` of the specification. -/
theorem C7_missing_column_fails (input : RawInput) (c : String)
    (hc : c ∈ requiredCols) (hmiss : c ∉ input.header) :
    ∃ e, parse_csv input = .error e := by
  have hstep : ∀ (st st' : AggState) (row : List String),
      processRecord input.header st row = .ok st' → st' = st := by
    intro st st' row h
    rcases step_ok_cases h with ⟨rfl, -, -⟩ | ⟨state, month, mon, cell, hrec, -, -⟩
    · rfl
    · exfalso
      obtain ⟨f, sv, mv, rv, ev, mon', hf, hU, hs, hm, hr, he, -⟩ :=
        recordedCell_some_elim hrec
      simp only [requiredCols, List.mem_cons, List.not_mem_nil, or_false] at hc
      rcases hc with rfl | rfl | rfl | rfl | rfl
      · rw [getField_err_of_not_mem hmiss] at hf; exact Except.noConfusion hf
      · rw [getField_err_of_not_mem hmiss] at hs; exact Except.noConfusion hs
      · rw [getField_err_of_not_mem hmiss] at hm; exact Except.noConfusion hm
      · rw [getField_err_of_not_mem hmiss] at hr; exact Except.noConfusion hr
      · rw [getField_err_of_not_mem hmiss] at he; exact Except.noConfusion he
  have hrun : ∀ (records : List (List String)) (st st' : AggState),
      runRecords input.header st records = .ok st' → st' = st := by
    intro records
    induction records with
    | nil => intro st st' h; cases h; rfl
    | cons r rest ih =>
      intro st st' h
      unfold runRecords at h
      cases hp : processRecord input.header st r with
      | error e => rw [hp] at h; exact absurd h (by simp)
      | ok st1 =>
        rw [hp] at h
        have h1 := hstep st st1 r hp
        rw [h1] at h
        exact ih st st' h
  cases hR : runRecords input.header initState
      (input.records.filter (fun r => !r.isEmpty)) with
  | error e =>
    refine ⟨e, ?_⟩
    unfold parse_csv
    rw [hR]
  | ok st =>
    have h1 : st = initState := hrun _ _ _ hR
    subst h1
    refine ⟨.indexError, ?_⟩
    unfold parse_csv
    rw [hR]
    rfl

/-- C7 witness: an empty header (missing `"Original or Updated"`) makes the
aggregator fail on a one-row input. -/
theorem C7_witness : ∃ e, parse_csv ⟨[], [["x"]]⟩ = .error e :=
  C7_missing_column_fails ⟨[], [["x"]]⟩ colFlag (by decide) (by decide)

/-- C10: on an input with a valid header but no data row whose trimmed
revision flag is `"U"` (including a header-only input), `parse_csv` raises
`IndexError` — the sorted period list is empty and `months[0]` is accessed —
instead of returning the empty dataset. -/
theorem C10_no_retained_row_raises (input : RawInput)
    (hhdr : ∀ c ∈ requiredCols, c ∈ input.header)
    (hnoU : ∀ row ∈ input.records,
      ∃ f, getField input.header row colFlag = .ok f ∧ pyStrip f ≠ "U") :
    parse_csv input = .error .indexError := by
  have hall : ∀ row ∈ input.records.filter (fun r => !r.isEmpty),
      processRecord input.header initState row = .ok initState := by
    intro row hrow
    obtain ⟨f, hf, hne⟩ := hnoU row (List.mem_of_mem_filter hrow)
    exact step_skip initState hf hne
  have hR := runRecords_all_skip input.header
    (input.records.filter (fun r => !r.isEmpty)) initState hall
  unfold parse_csv
  rw [hR]
  rfl

/-- C10 witness: a single `"O"` row under a valid header raises `IndexError`
rather than producing `{"states": [], "rows": []}`. -/
theorem C10_witness :
    parse_csv ⟨requiredCols, [["O", "CA", "202301", "1", "2"]]⟩ = .error .indexError :=
  C10_no_retained_row_raises ⟨requiredCols, [["O", "CA", "202301", "1", "2"]]⟩
    (by decide)
    (fun row hrow => by
      rw [List.mem_singleton] at hrow
      subst hrow
      exact ⟨"O", by decide, by decide⟩)

/-- C3: whenever `parse_csv` returns a dataset, its `states` list is sorted
ascending, duplicate-free, and contains exactly the trimmed state
identifiers of the retained rows (rows whose trimmed revision flag is
`"U"`). -/
theorem C3_states_sorted_dedup_complete (input : RawInput) (d : Dataset)
    (hok : parse_csv input = .ok d) :
    d.states.Sorted (· ≤ ·) ∧ d.states.Nodup ∧
    ∀ s, s ∈ d.states ↔
      ∃ row ∈ input.records, retainedState input.header row = some s := by
  obtain ⟨st, hR, hF⟩ := parse_ok_elim hok
  obtain ⟨hstates, -, -⟩ := finalize_ok_elim hF
  have hnd := runRecords_nodup input.header _ _ _ hR (by simp [initState]) (by simp [initState])
  refine ⟨?_, ?_, ?_⟩
  · rw [hstates]
    exact sortStr_sorted _
  · rw [hstates]
    exact nodup_sortStr hnd.1
  · intro s
    rw [hstates, mem_sortStr, runRecords_states input.header _ _ _ hR s]
    simp only [initState, List.not_mem_nil, false_or]
    constructor
    · rintro ⟨row, hrowf, m, v, hrec⟩
      refine ⟨row, List.mem_of_mem_filter hrowf, ?_⟩
      obtain ⟨f, sv, mv, rv, ev, mon, hf, hU, hs, hm, hr, he, hmon, -, hs2, -⟩ :=
        recordedCell_some_elim hrec
      rw [(recordedCell_eq_full hf hU hs hm hr he hmon).2, hs2]
    · rintro ⟨row, hrow, hret⟩
      obtain ⟨f, sv, hf, hU, hs, hseq⟩ := retainedState_some_elim hret
      have hrowne : (!row.isEmpty) = true := by
        simpa [List.isEmpty_iff] using getField_ok_ne_nil hf
      have hrowf : row ∈ input.records.filter (fun r => !r.isEmpty) :=
        List.mem_filter.mpr ⟨hrow, hrowne⟩
      obtain ⟨a, b, hab⟩ := runRecords_all_ok input.header _ _ _ hR row hrowf
      rcases step_ok_cases hab with ⟨-, -, hret2⟩ | ⟨state, month, mon, cell, hrec2, hret2, -⟩
      · rw [hret] at hret2
        exact absurd hret2 (by simp)
      · rw [hret] at hret2
        injection hret2 with hstate
        exact ⟨row, hrowf, month, cell, by rw [← hstate] at hrec2; exact hrec2⟩

/-- C4 (amended): on every returned dataset in which no state identifier is
literally `"month"` or `"date"`, the Python row dict of every element of
`rows` has exactly one entry (a number or null) for every state in `states`,
in addition to its `month` and `date` fields — a dense period-by-state
matrix with nullable cells.  (Unconditionally the claim is false: since the
row is a dict and `entry[s] = ...` is a dict assignment, a state named
`"month"` or `"date"` overwrites that field, see the counterexample.) -/
theorem C4_row_dict_dense (input : RawInput) (d : Dataset)
    (hok : parse_csv input = .ok d)
    (hm : "month" ∉ d.states) (hd : "date" ∉ d.states) :
    ∀ r ∈ d.rows,
      alookup (pyEntry r) "month" = some (PyVal.str r.month) ∧
      alookup (pyEntry r) "date" = some (PyVal.str r.date) ∧
      ∀ s ∈ d.states,
        (pyEntry r).countP (fun c => c.1 == s) = 1 ∧
        ∃ v, alookup r.cells s = some v ∧
          alookup (pyEntry r) s = some (PyVal.num v) := by
  obtain ⟨st, hR, hF⟩ := parse_ok_elim hok
  obtain ⟨hstates, hrows, -⟩ := finalize_ok_elim hF
  obtain ⟨-, hcells⟩ := buildRows_ok st _ _ _ hrows
  have hndS : d.states.Nodup := by
    rw [hstates]
    exact nodup_sortStr
      (runRecords_nodup input.header _ _ _ hR (by simp [initState]) (by simp [initState])).1
  intro r hr
  have hc := hcells r hr
  have hkeys : r.cells.map Prod.fst = d.states := by
    rw [hc, hstates, List.map_map]
    rw [show (Prod.fst ∘ fun s => (s, getCell st.rows_by_month r.month s)) = id from rfl]
    exact List.map_id _
  have hkeysnd : (r.cells.map Prod.fst).Nodup := by
    rw [hkeys]
    exact hndS
  have hnotmemM : ∀ c ∈ r.cells, c.1 ≠ "month" := by
    intro c hcmem heq
    have hmem : c.1 ∈ d.states := by
      rw [← hkeys]
      exact List.mem_map_of_mem Prod.fst hcmem
    rw [heq] at hmem
    exact hm hmem
  have hnotmemD : ∀ c ∈ r.cells, c.1 ≠ "date" := by
    intro c hcmem heq
    have hmem : c.1 ∈ d.states := by
      rw [← hkeys]
      exact List.mem_map_of_mem Prod.fst hcmem
    rw [heq] at hmem
    exact hd hmem
  refine ⟨?_, ?_, ?_⟩
  · unfold pyEntry
    rw [alookup_foldl_notmem r.cells _ "month" hnotmemM]
    rfl
  · unfold pyEntry
    rw [alookup_foldl_notmem r.cells _ "date" hnotmemD]
    rfl
  · intro s hsmem
    have hsmem' : s ∈ sortStr st.states_seen := by
      rw [← hstates]
      exact hsmem
    have hsv : alookup r.cells s = some (getCell st.rows_by_month r.month s) := by
      rw [hc, alookup_graph, if_pos hsmem']
    have hpv : alookup (pyEntry r) s =
        some (PyVal.num (getCell st.rows_by_month r.month s)) := by
      unfold pyEntry
      exact alookup_foldl_mem r.cells _ s _ hkeysnd hsv
    refine ⟨?_, _, hsv, hpv⟩
    rw [countP_keys]
    have hka : ((pyEntry r).map Prod.fst).Nodup := by
      unfold pyEntry
      refine nodup_keys_foldl r.cells _ ?_
      rw [show (List.map Prod.fst
        [("month", PyVal.str r.month), ("date", PyVal.str r.date)]) =
        ["month", "date"] from rfl]
      decide
    exact List.count_eq_one_of_mem hka (alookup_some_mem_keys hpv)

/-- C4 counterexample: on the valid retained row `["U","month","202301","",""]`
the program returns the state list `["month"]`, and that row's Python dict
is `{"month": None, "date": "1/1/2023"}` — the state's cell assignment
`entry["month"] = None` has OVERWRITTEN the month field `"202301"`, so the
row is not a state entry in addition to its month and date fields. -/
theorem C4_counterexample :
    parse_csv ⟨requiredCols, [["U", "month", "202301", "", ""]]⟩ =
      .ok ⟨["month"], [⟨"202301", "1/1/2023", [("month", none)]⟩]⟩ ∧
    pyEntry ⟨"202301", "1/1/2023", [("month", none)]⟩ =
      [("month", PyVal.num none), ("date", PyVal.str "1/1/2023")] ∧
    alookup (pyEntry ⟨"202301", "1/1/2023", [("month", none)]⟩) "month" ≠
      some (PyVal.str "202301") := by
  refine ⟨by decide, by decide, by decide⟩

/-- C5: when at least one retained row targets the pair (month `m`, state
`s`), the returned dataset has exactly one row for `m`, that row has exactly
one cell for `s`, and the cell's value is the one computed by the LAST such
retained row in source order — later rows silently overwrite earlier ones. -/
theorem C5_last_write_wins (input : RawInput) (d : Dataset) (m s : String) (v : Option ℚ)
    (hok : parse_csv input = .ok d)
    (hlast : lastCell input.header input.records m s = some v) :
    d.rows.countP (fun r => r.month == m) = 1 ∧
    ∀ r ∈ d.rows, r.month = m →
      r.cells.countP (fun c => c.1 == s) = 1 ∧ alookup r.cells s = some v := by
  obtain ⟨st, hR, hF⟩ := parse_ok_elim hok
  obtain ⟨hstates, hrows, -⟩ := finalize_ok_elim hF
  obtain ⟨hmap, hcells⟩ := buildRows_ok st _ _ _ hrows
  have hnd := runRecords_nodup input.header _ _ _ hR (by simp [initState]) (by simp [initState])
  have hndS := nodup_sortStr hnd.1
  have hndM := nodup_sortStr hnd.2
  have hlast' : lastCell input.header
      (input.records.filter (fun r => !r.isEmpty)) m s = some v := by
    rw [lastCell_filter]
    exact hlast
  have hlook : lookup2 st.rows_by_month m s = some v := by
    rw [runRecords_cells input.header _ _ _ hR m s]
    exact hlast'
  rcases foldl_lastStep_some_mem input.header m s _ none v hlast' with
    ⟨row, hrowf, v', hrec⟩ | habs
  · have hm_mem : m ∈ st.months_seen := by
      rw [runRecords_months input.header _ _ _ hR m]
      exact Or.inr ⟨row, hrowf, s, v', hrec⟩
    have hs_mem : s ∈ st.states_seen := by
      rw [runRecords_states input.header _ _ _ hR s]
      exact Or.inr ⟨row, hrowf, m, v', hrec⟩
    constructor
    · have h1 : (sortStr st.months_seen).count m = 1 :=
        List.count_eq_one_of_mem hndM (mem_sortStr.mpr hm_mem)
      rw [← hmap, List.count, List.countP_map] at h1
      simpa [Function.comp] using h1
    · intro r hr hrm
      have hc := hcells r hr
      have hsS : s ∈ sortStr st.states_seen := mem_sortStr.mpr hs_mem
      constructor
      · rw [hc, countP_graph]
        exact List.count_eq_one_of_mem hndS hsS
      · rw [hc, alookup_graph, if_pos hsS, hrm]
        unfold getCell
        rw [hlook]
  · exact absurd habs (by simp)

/-- C1 (amended): for a retained row whose five fields are present and whose
trimmed period identifier has a tail (after the first four characters) that
parses as an integer, if the trimmed renewal-due text is empty, or the
trimmed ex-parte text is empty, or either fails to parse as a number, or the
parsed renewal-due value is zero, then processing the row does not raise and
records exactly a null (never zero) for that (period, state) cell.  (The
claim's unconditional "never raises" is false: a malformed period identifier
raises `ValueError` before the cell computation, see the counterexample.) -/
theorem C1_null_cell_no_raise (header : List String) (st : AggState) (row : List String)
    (f sv mv rv ev : String) (mon : Int)
    (hf : getField header row colFlag = .ok f) (hU : pyStrip f = "U")
    (hs : getField header row colState = .ok sv)
    (hm : getField header row colMonth = .ok mv)
    (hr : getField header row colRenewal = .ok rv)
    (he : getField header row colExParte = .ok ev)
    (hmon : pyInt (strDrop (pyStrip mv) 4) = some mon)
    (hnull : pyStrip rv = "" ∨ pyStrip ev = "" ∨ pyFloat (pyStrip rv) = none ∨
      pyFloat (pyStrip ev) = none ∨ pyFloat (pyStrip rv) = some 0) :
    processRecord header st row =
      .ok (applyFull st (pyStrip sv) (pyStrip mv) mon none) ∧
    lookup2 (setCell st.rows_by_month (pyStrip mv) (pyStrip sv) none)
      (pyStrip mv) (pyStrip sv) = some none := by
  have hcell : computeCell (pyStrip rv) (pyStrip ev) = none := by
    unfold computeCell
    rcases hnull with h0 | h0 | h0 | h0 | h0
    · simp [h0]
    · simp [h0]
    · by_cases hne : pyStrip rv ≠ "" ∧ pyStrip ev ≠ ""
      · rw [if_pos hne, h0]
        cases pyFloat (pyStrip ev) <;> rfl
      · rw [if_neg hne]
    · by_cases hne : pyStrip rv ≠ "" ∧ pyStrip ev ≠ ""
      · rw [if_pos hne, h0]
      · rw [if_neg hne]
    · by_cases hne : pyStrip rv ≠ "" ∧ pyStrip ev ≠ ""
      · rw [if_pos hne, h0]
        cases pyFloat (pyStrip ev) with
        | none => rfl
        | some e => simp
      · rw [if_neg hne]
  constructor
  · have hstep := step_full st hf hU hs hm hr he hmon
    rw [hcell] at hstep
    exact hstep
  · rw [lookup2_setCell]
    simp

/-- C1 counterexample: the retained row `["U", "CA", "bad", "", ""]` has an
empty renewal-due text, so per the claim its cell should be recorded as null
without raising; but the aggregation raises `ValueError` (from
`int(month[4:])` on the malformed period identifier `"bad"`) instead. -/
theorem C1_counterexample :
    getField requiredCols ["U", "CA", "bad", "", ""] colFlag = .ok "U" ∧
    getField requiredCols ["U", "CA", "bad", "", ""] colRenewal = .ok "" ∧
    parse_csv ⟨requiredCols, [["U", "CA", "bad", "", ""]]⟩ =
      .error (.valueError "") := by
  refine ⟨by decide, by decide, by decide⟩

theorem subAllAux_no_marker (repl : List Char) (t : String)
    (h : hasMarker t = false) :
    subAllAux repl (t.data.length + 1) t.data = t.data := by
  unfold subAllAux
  unfold hasMarker at h
  cases hS : findSub markerS t.data with
  | none => rfl
  | some i =>
    rw [hS] at h
    dsimp only at h ⊢
    cases hE : findSub markerE (List.drop (i + markerS.length) t.data) with
    | none => rfl
    | some j =>
      rw [hE] at h
      exact absurd h (by simp)

/-- C8 (amended): `re.sub` first compiles the replacement template eagerly,
so the renderer raises `re.error` when the serialized payload contains a bad
escape (such as the `\uXXXX` that `json.dumps` emits for non-ASCII text)
even if nothing matches; when the replacement does parse and the template
does not contain the marker pattern, the renderer is a silent no-op: it
returns the template text unchanged, and that unmodified text is what gets
written — no `TemplateError` exists in the code. -/
theorem C8_no_marker_returns_template (d : Dataset) (t : String) (processed : List Char)
    (hrepl : parseTemplate (replChars d) = .ok processed)
    (h : hasMarker t = false) : build_html_checked d t = .ok t := by
  unfold build_html_checked
  rw [hrepl]
  dsimp only
  rw [subAllAux_no_marker processed t h]

/-- C8 counterexample: on a template with no markers (and a plain-ASCII
payload, so the eager replacement compile succeeds) the renderer does not
fail — it produces output text, namely the unmodified template, which is
passed on to the writer. -/
theorem C8_counterexample :
    build_html_checked ⟨["CA"], []⟩ "<html>no markers</html>" =
      .ok "<html>no markers</html>" := by
  decide

/-- The documented relation between the full renderer and its substitution
core: when the replacement template processes to itself (payload free of
backslash escapes), the checked renderer returns exactly `build_html`. -/
theorem build_html_checked_eq_core (d : Dataset) (t : String)
    (h : parseTemplate (replChars d) = .ok (replChars d)) :
    build_html_checked d t = .ok (build_html d t) := by
  unfold build_html_checked build_html
  rw [h]

/-- The eager replacement compile is faithfully present: a payload holding a
`\uXXXX` escape is rejected by the replacement-template parser (CPython's
`re.error: bad escape \u`), independent of the template. -/
theorem parseTemplate_bad_escape_u :
    parseTemplate ("const INJECTED = \x7b\"e\": \"\\u00e9\"\x7d;").data =
      .error "bad escape \\u" := by
  decide

/-- C9 counterexample: the output the spec claims is NOT what the renderer
produces — `json.dumps` emits its default separators `", "` and `": "`, so
the claimed byte-exact payload (with no spaces after `:` and `,`) differs
from the real output. -/
theorem C9_counterexample :
    build_html ⟨["CA"], []⟩ "<html>// INJECT_DATA_START\nold\n// INJECT_DATA_END</html>" ≠
      "<html>// INJECT_DATA_START\nconst INJECTED = \x7b\"states\":[\"CA\"],\"rows\":[]\x7d;\n// INJECT_DATA_END</html>" := by
  decide

/-- C9 (amended): for the template
`"<html>// INJECT_DATA_START\nold\n// INJECT_DATA_END</html>"` and the
dataset `{"states": ["CA"], "rows": []}`, the renderer's output substitutes
the serialized dataset between the markers, with the markers preserved and
`json.dumps`'s default `", "`/`": "` separators in the payload. -/
theorem C9_render_example :
    build_html ⟨["CA"], []⟩ "<html>// INJECT_DATA_START\nold\n// INJECT_DATA_END</html>" =
      "<html>// INJECT_DATA_START\nconst INJECTED = \x7b\"states\": [\"CA\"], \"rows\": []\x7d;\n// INJECT_DATA_END</html>" := by
  decide

/-! ### Concrete witnesses -/

/-- C1 witness input/output: the retained row `["U","CA","202301","","5"]`
(empty renewal-due, well-formed period) records a null without raising. -/
theorem C1_witness :
    processRecord requiredCols initState ["U", "CA", "202301", "", "5"] =
      .ok (applyFull initState (pyStrip "CA") (pyStrip "202301") 1 none) ∧
    lookup2 (setCell initState.rows_by_month (pyStrip "202301") (pyStrip "CA") none)
      (pyStrip "202301") (pyStrip "CA") = some none :=
  C1_null_cell_no_raise requiredCols initState ["U", "CA", "202301", "", "5"]
    "U" "CA" "202301" "" "5" 1 (by decide) (by decide) (by decide) (by decide)
    (by decide) (by decide) (by decide) (Or.inl (by decide))

/-- C3 witness input: two retained rows with empty counts. -/
def wInput3 : RawInput :=
  ⟨requiredCols, [["U", "TX", "202302", "", ""], ["U", "CA", "202301", "", ""]]⟩

/-- C3 witness output: the dataset `parse_csv` returns on `wInput3`. -/
def wData3 : Dataset :=
  ⟨["CA", "TX"],
   [⟨"202301", "1/1/2023", [("CA", none), ("TX", none)]⟩,
    ⟨"202302", "2/1/2023", [("CA", none), ("TX", none)]⟩]⟩

/-- C3 witness: sortedness, dedup and completeness of `states` on `wInput3`. -/
theorem C3_witness :
    wData3.states.Sorted (· ≤ ·) ∧ wData3.states.Nodup ∧
    ∀ s, s ∈ wData3.states ↔
      ∃ row ∈ wInput3.records, retainedState wInput3.header row = some s :=
  C3_states_sorted_dedup_complete wInput3 wData3 (by decide)

/-- C4 witness input: one retained row. -/
def wInput4 : RawInput := ⟨requiredCols, [["U", "AZ", "202303", "", ""]]⟩

/-- C4 witness output: the dataset `parse_csv` returns on `wInput4`. -/
def wData4 : Dataset := ⟨["AZ"], [⟨"202303", "3/1/2023", [("AZ", none)]⟩]⟩

/-- C4 witness row: the single row of `wData4`. -/
def wRow4 : RowEntry := ⟨"202303", "3/1/2023", [("AZ", none)]⟩

/-- C4 witness: matrix density of the row dict on `wInput4` (whose state
`"AZ"` collides with neither `"month"` nor `"date"`), at its row and state. -/
theorem C4_witness :
    alookup (pyEntry wRow4) "month" = some (PyVal.str "202303") ∧
    alookup (pyEntry wRow4) "date" = some (PyVal.str "3/1/2023") ∧
    (pyEntry wRow4).countP (fun c => c.1 == "AZ") = 1 ∧
    ∃ v, alookup wRow4.cells "AZ" = some v ∧
      alookup (pyEntry wRow4) "AZ" = some (PyVal.num v) :=
  have T := C4_row_dict_dense wInput4 wData4 (by decide) (by decide) (by decide)
    wRow4 (by decide)
  ⟨T.1, T.2.1, (T.2.2 "AZ" (by decide)).1, (T.2.2 "AZ" (by decide)).2⟩

/-- C5 witness input: two retained rows for the same (CA, 202301) pair; the
first computes the rate 75.0, the second computes null. -/
def wInput5 : RawInput :=
  ⟨requiredCols, [["U", "CA", "202301", "200", "150"], ["U", "CA", "202301", "", ""]]⟩

/-- C5 witness output: the later null silently overwrites the earlier 75.0. -/
def wData5 : Dataset := ⟨["CA"], [⟨"202301", "1/1/2023", [("CA", none)]⟩]⟩

section
attribute [local semireducible] Rat.add Rat.mul Rat.inv Rat.sub Rat.ofScientific

/-- C5 witness: last write wins on `wInput5` — the (CA, 202301) cell holds
the LAST row's value (null), not the first row's 75.0, and appears once. -/
theorem C5_witness :
    wData5.rows.countP (fun r => r.month == "202301") = 1 ∧
    ∀ r ∈ wData5.rows, r.month = "202301" →
      r.cells.countP (fun c => c.1 == "CA") = 1 ∧ alookup r.cells "CA" = some none :=
  C5_last_write_wins wInput5 wData5 "202301" "CA" none (by decide) (by decide)

end

/-- C8 witness: a marker-free template with a parseable (backslash-free)
payload passes through unchanged. -/
theorem C8_witness :
    build_html_checked ⟨[], []⟩ "<p>plain page</p>" = .ok "<p>plain page</p>" :=
  C8_no_marker_returns_template ⟨[], []⟩ "<p>plain page</p>" (replChars ⟨[], []⟩)
    (by decide) (by decide)

end ExparteRates
